import Mathlib

/-!
Verification of the kumak conversation-orchestration engine.

Shallow embedding of the routing, suspend/resume, tool-loop, merge and
retry logic of the repository (src/app), with theorems settling the
frozen specification claims.  Python dictionaries are modelled as
functions `String → Option String`, message objects as a `Msg`
structure, and external collaborators (the LLM, the extraction service,
tools, the checkpoint store) as explicit function parameters.
-/

namespace Kumak

/-- The whitespace stripped by Python `str.strip()`. -/
def pyWhitespace (c : Char) : Bool := c = ' ' || c = '\t' || c = '\n' || c = '\r'

/-- Python `str.strip()`: drop leading and trailing whitespace. -/
def pyStrip (s : String) : String :=
  ⟨((s.data.dropWhile pyWhitespace).reverse.dropWhile pyWhitespace).reverse⟩

/-- ASCII lower-casing of one character (the engine's tokens and
keywords are ASCII, where Python `str.lower()` coincides). -/
def pyLowerChar (c : Char) : Char :=
  if 65 ≤ c.toNat ∧ c.toNat ≤ 90 then Char.ofNat (c.toNat + 32) else c

/-- Python `str.lower()`. -/
def pyLower (s : String) : String := ⟨s.data.map pyLowerChar⟩

/-- Does `sub` occur as a contiguous run inside `l`? -/
def listHasRun (sub : List Char) : List Char → Bool
  | [] => sub.isEmpty
  | c :: t => sub.isPrefixOf (c :: t) || listHasRun sub t

/-- Python `sub in s` substring containment test. -/
def strContains (s sub : String) : Bool := listHasRun sub.data s.data

/-- Roles of `langchain` messages: `HumanMessage`, `AIMessage`, `ToolMessage`. -/
inductive Role
  | human
  | ai
  | tool
  deriving DecidableEq, Repr

/-- One tool-call request carried by an `AIMessage` (name + arguments + call id). -/
structure ToolCall where
  name : String
  args : String
  id : String
  deriving DecidableEq, Repr

/-- A `langchain` message: role, content, the tool-call list (empty for
non-AI messages), the tool-call id of a tool-result message, and the
message id used by the `add_messages` reducer. -/
structure Msg where
  role : Role
  content : String
  toolCalls : List ToolCall := []
  toolCallId : Option String := none
  mid : String := ""
  deriving DecidableEq, Repr

def humanMsg (content : String) (mid : String := "") : Msg :=
  { role := .human, content := content, mid := mid }

def aiMsg (content : String) (mid : String := "") : Msg :=
  { role := .ai, content := content, mid := mid }

/-- A Python `Dict[str, str]` (e.g. `business_info`), as a partial map. -/
def Dict : Type := String → Option String

/-- The empty dictionary `{}`. -/
def Dict.empty : Dict := fun _ => none

/-- Python dict item assignment `d[k] = v`. -/
def Dict.insert (d : Dict) (k v : String) : Dict :=
  fun k' => if k' = k then some v else d k'

/-- Python `d.get(k)`. -/
def Dict.get (d : Dict) (k : String) : Option String := d k

/-- Python truthiness of `d.get(k)`: present and non-empty. -/
def Dict.truthy (d : Dict) (k : String) : Bool :=
  match d k with
  | some v => v ≠ ""
  | none => false

/-- The `PYMESState` record (src/app/graph/state.py) restricted to the
fields the verified operations read or write. -/
structure PState where
  messages : List Msg := []
  businessInfo : Dict := Dict.empty
  feedback : List String := []
  input : String := ""
  answer : String := ""
  summary : String := ""
  stage : String := ""
  businessContext : String := ""

/-- LangGraph's terminal pseudo-node `END`. -/
def END_ : String := "__end__"

/-! ## Termination tokens and intent keywords
(src/app/graph/handoff_system.py, src/app/graph/supervisor_architecture.py) -/

def termination_words : List String :=
  ["done", "thanks", "bye", "adios", "terminate", "exit", "gracias", "chau", "fin"]

def research_keywords : List String :=
  ["investiga", "analiza", "oportunidades", "mercado", "competencia", "crecimiento"]

def conversation_keywords : List String :=
  ["qué opinas", "consejo específico", "recomienda algo", "tu opinión"]

def change_keywords : List String :=
  ["corrección", "cambiar", "actualizar", "mejor dicho", "en realidad"]

/-- The test `user_message.strip().lower() in termination_words`. -/
def isTermination (v : String) : Bool :=
  pyLower (pyStrip v) ∈ termination_words

def wantsResearch (m : String) : Bool :=
  research_keywords.any (fun k => strContains (pyLower m) k)

def wantsConversation (m : String) : Bool :=
  conversation_keywords.any (fun k => strContains (pyLower m) k)

def wantsToChange (m : String) : Bool :=
  change_keywords.any (fun k => strContains (pyLower m) k)

/-! ## Critical-field completeness (intelligent_supervisor_node, step 3) -/

def critical_fields : List String :=
  ["nombre_empresa", "ubicacion", "productos_servicios_principales", "descripcion_negocio"]

/-- The list `[field for field in critical_fields if not business_info.get(field)]`. -/
def missingCritical (d : Dict) : List String :=
  critical_fields.filter (fun f => ¬ d.truthy f)

/-- The flag `can_research = len(missing_critical) == 0`. -/
def canResearch (d : Dict) : Bool := missingCritical d = []

/-! ## The supervisor routing decision
(src/app/graph/handoff_system.py, intelligent_supervisor_node, steps 3-6).
`user_message` is the content of the most recent `HumanMessage`;
`binfo` is the business-info dictionary after the extraction step. -/

def supervisorGoto (user_message : String) (binfo : Dict) : String :=
  if isTermination user_message then END_
  else if wantsToChange user_message then "info_completion_agent"
  else if ¬ canResearch binfo then "info_completion_agent"
  else if wantsResearch user_message then "researcher"
  else if wantsConversation user_message then "conversational_agent"
  else "research_router"

/-- Content of the most recent `HumanMessage` in the history (the
`for msg in reversed(messages)` scan), `""` when there is none. -/
def lastHumanContent (msgs : List Msg) : String :=
  match msgs.reverse.find? (fun m => m.role = Role.human) with
  | some m => m.content
  | none => ""

/-- The `Command` value produced by `intelligent_supervisor_node`:
a state update plus a goto target. -/
structure SupResult where
  goto : String
  businessInfo : Dict

/-- Node `intelligent_supervisor_node` (src/app/graph/handoff_system.py):
extract business info from the last user message (the extraction
service is the collaborator parameter `extract`), then decide routing.
Extraction runs only when there is a user message and the history has
more than one message. -/
def intelligent_supervisor_node (extract : String → Dict → Dict) (s : PState) : SupResult :=
  let user_message := lastHumanContent s.messages
  let binfo :=
    if user_message ≠ "" ∧ s.messages.length > 1 then
      extract user_message s.businessInfo
    else s.businessInfo
  { goto := supervisorGoto user_message binfo, businessInfo := binfo }

/-- Node `human_feedback_node` (src/app/graph/supervisor_architecture.py):
the routing decision taken on the value returned by `interrupt()` —
termination words end the run, anything else goes back to the
`business_evaluator` routing node. -/
def human_feedback_goto (user_input : String) : String :=
  if pyLower (pyStrip user_input) ∈ termination_words then END_
  else "business_evaluator"

/-! ## should_continue (src/app/graph/central_orchestrator.py) -/

/-- Function `should_continue`: `"tools"` when the last message carries tool
calls, `END` otherwise.  (The source indexes `messages[-1]`; after the
agent node the history is never empty.) -/
def should_continue (s : PState) : String :=
  match s.messages.getLast? with
  | some last => if last.toolCalls ≠ [] then "tools" else END_
  | none => END_

/-! ## The `messages` channel reducer
(`add_messages`, inherited through `MessagesState` in src/app/graph/state.py).
A node's patch for the channel is a list of messages; a `RemoveMessage`
entry deletes the message with the matching id, a message with an id
already in the history replaces it in place, anything else appends. -/

/-- One entry of a `messages` patch: an ordinary message or a
`RemoveMessage(id=...)` directive. -/
inductive MsgPatch
  | add (m : Msg)
  | removeMsg (id : String)
  deriving DecidableEq, Repr

/-- Insert one message: same-id replace, else append (LangGraph `add_messages`). -/
def upsertMsg (acc : List Msg) (m : Msg) : List Msg :=
  if acc.any (fun x => x.mid = m.mid) then
    acc.map (fun x => if x.mid = m.mid then m else x)
  else acc ++ [m]

def applyPatch (acc : List Msg) : MsgPatch → List Msg
  | .add m => upsertMsg acc m
  | .removeMsg i => acc.filter (fun x => x.mid ≠ i)

/-- The `add_messages` reducer: fold a patch into the history. -/
def addMessages (old : List Msg) (patch : List MsgPatch) : List Msg :=
  patch.foldl applyPatch old

/-- A patch that contains no `RemoveMessage` directive. -/
def removeFree (patch : List MsgPatch) : Bool :=
  patch.all (fun p => match p with | .add _ => true | .removeMsg _ => false)

/-- Plain append patches, as produced by every ordinary node. -/
def liftAdds (l : List Msg) : List MsgPatch := l.map .add

/-- Node `summarize_conversation` (src/app/graph/nodes.py): the patch it
returns — a `RemoveMessage` for every message except the two most
recent (`state["messages"][:-2]`), plus the summary text produced by
the LLM collaborator `llmSummary`. -/
def summarize_conversation (llmSummary : String) (s : PState) : List MsgPatch × String :=
  ((s.messages.take (s.messages.length - 2)).map (fun m => .removeMsg m.mid), llmSummary)

/-! ## Business-info extraction and merge
(src/app/services/business_info_manager.py). -/

/-- Structure `BusinessInfoAnalysis`: the structured output of the extraction LLM. -/
structure BusinessInfoAnalysis where
  is_important : Bool
  extracted_info : Option (List (String × Option String))

/-- One iteration of the merge loop of
`extract_and_store_business_info`: store the stripped value only when
it is non-`None` and non-empty after stripping
(`if value is not None and value.strip()`). -/
def mergeStep (acc : Dict) (fv : String × Option String) : Dict :=
  match fv.2 with
  | none => acc
  | some v => if pyStrip v ≠ "" then acc.insert fv.1 (pyStrip v) else acc

/-- The merge loop of `extract_and_store_business_info` over all
extracted fields. -/
def mergeExtracted (cur : Dict) (ext : List (String × Option String)) : Dict :=
  ext.foldl mergeStep cur

/-- Function `extract_and_store_business_info`: non-human messages are returned
unchanged; otherwise the analysis (collaborator output) is merged when
it is important and non-empty. -/
def extract_and_store_business_info
    (msgRole : Role) (analysis : BusinessInfoAnalysis) (cur : Dict) : Dict :=
  if msgRole ≠ .human then cur
  else
    match analysis.extracted_info with
    | some ext => if analysis.is_important ∧ ext ≠ [] then mergeExtracted cur ext else cur
    | none => cur

/-! ## The interrupt/resume protocol
Modelled from the spec: the LangGraph runtime that implements
`interrupt()`/`Command(resume=...)` is a library collaborator, absent
from src/.  Per the spec (§4.3), on the first run the node yields the
interrupt payload; on resume the node is re-executed with the resume
value injected as the return value of the `interrupt()` call. -/

/-- The payload passed to `interrupt()` by the feedback nodes. -/
structure InterruptPayload where
  answer : String
  message : String
  deriving DecidableEq, Repr

/-- A node containing one `interrupt()` call, split at the call site:
`pre` is everything computed before the call (a pure function of the
state), `payload` the argument of `interrupt()`, `post` the rest of
the node body, which receives the value the call returned. -/
structure InterruptNode (α β : Type) where
  pre : PState → α
  payload : PState → α → InterruptPayload
  post : PState → α → String → β

/-- Modelled from the spec: one invocation of an interrupt node by the
executor.  Without a resume value the node suspends with its payload;
with a resume value `v` the node is re-executed from its start and the
`interrupt()` call returns `v`. -/
def runInterruptNode {α β : Type} (n : InterruptNode α β) (s : PState) :
    Option String → InterruptPayload ⊕ β
  | none => .inl (n.payload s (n.pre s))
  | some v => .inr (n.post s (n.pre s) v)

/-- The hypothetical synchronous semantics: `interrupt()` immediately
returns `v` inside the original invocation. -/
def syncInterruptNode {α β : Type} (n : InterruptNode α β) (s : PState) (v : String) : β :=
  n.post s (n.pre s) v

/-! ## enhanced_human_feedback_node (src/app/graph/handoff_system.py) -/

/-- Content of the most recent `AIMessage` (the `for message in
reversed(messages)` scan), with the node's default text. -/
def latestAnswer (msgs : List Msg) : String :=
  match msgs.reverse.find? (fun m => m.role = Role.ai) with
  | some m => m.content
  | none => "Esperando respuesta del asistente."

/-- The `Command` returned by `enhanced_human_feedback_node`. -/
structure FeedbackCommand where
  messagesPatch : List Msg
  feedback : List String
  input : String
  goto : String
  deriving DecidableEq, Repr

/-- Node `enhanced_human_feedback_node` as an interrupt node: before the
`interrupt()` call it computes the latest assistant answer; after the
call it appends the user's reply to the history and feedback list and
routes to the supervisor. -/
def enhanced_human_feedback_node : InterruptNode String FeedbackCommand where
  pre s := latestAnswer s.messages
  payload _ a := { answer := a, message := "Proporcione su respuesta:" }
  post s _ v :=
    { messagesPatch := [humanMsg v]
      feedback := s.feedback ++ [v]
      input := v
      goto := "intelligent_supervisor" }

/-- Applying the `enhanced_human_feedback_node` command to the state
(the executor's merge step; fresh message ids append). -/
def applyFeedbackCommand (s : PState) (c : FeedbackCommand) : PState :=
  { s with messages := s.messages ++ c.messagesPatch
           feedback := c.feedback
           input := c.input }

/-- One resumed turn of the multi-agent supervisor graph
(src/app/graph/multi_agent_supervisor.py): the feedback node is resumed
with `v`, its command is merged, and the supervisor routes. -/
def resumeRouting (extract : String → Dict → Dict) (s : PState) (v : String) : String :=
  match runInterruptNode enhanced_human_feedback_node s (some v) with
  | .inl _ => END_
  | .inr c => (intelligent_supervisor_node extract (applyFeedbackCommand s c)).goto

/-! ## enhanced_info_completion_node (src/app/graph/enhanced_agents.py)
The ReAct agent and the extraction service are collaborator parameters
returning `Except` to model raised exceptions. -/

/-- The fallback assistant text of the node's exception handler. -/
def infoCompletionFallback : String :=
  "Disculpa, hubo un error. ¿Podrías contarme sobre tu negocio?"

/-- The `Command` returned by `enhanced_info_completion_node`. -/
structure NodeCommand where
  messagesPatch : List Msg
  answer : Option String
  businessInfo : Option Dict
  stage : Option String
  goto : String

/-- Node `enhanced_info_completion_node`: on success, merge the agent's
messages, update business info (extraction failures are swallowed by
the inner handler), and go to the human-feedback node; on any
exception, synthesize the fallback assistant message and still go to
the human-feedback node.  The node never re-raises. -/
def enhanced_info_completion_node
    (agent : PState → Except String (List Msg))
    (extract : String → Dict → Except String Dict)
    (s : PState) : NodeCommand :=
  match agent s with
  | .ok agentMsgs =>
    let user_message := lastHumanContent s.messages
    let binfo :=
      if user_message ≠ "" then
        match extract user_message s.businessInfo with
        | .ok updated => updated
        | .error _ => s.businessInfo
      else s.businessInfo
    { messagesPatch := agentMsgs, answer := none, businessInfo := some binfo
      stage := some "info_gathering", goto := "enhanced_human_feedback" }
  | .error _ =>
    { messagesPatch := [aiMsg infoCompletionFallback], answer := some infoCompletionFallback
      businessInfo := none, stage := none, goto := "enhanced_human_feedback" }

/-! ## The chat-service run result (src/app/services/chat_service.py,
process_message): the outer handler converts every raised exception
into an error-status dictionary, an interrupt into an
"interrupted"-status result carrying the interrupt payload's answer. -/

/-- What one graph invocation produced, as seen by `process_message`. -/
inductive GraphOutcome
  | interrupted (payload : InterruptPayload) (finalMessages : List Msg)
  | finished (finalMessages : List Msg)

/-- The answer extracted from the final history: the last `AIMessage`
that is not a processing-error message, or the default text. -/
def finalAnswer (msgs : List Msg) : String :=
  match msgs.reverse.find?
      (fun m => m.role = Role.ai ∧ ¬ strContains m.content "Error procesando entrada") with
  | some m => m.content
  | none => "El asistente no generó una respuesta en este turno."

/-- The dictionary `process_message` returns to its caller. -/
structure RunResult where
  status : String
  answer : String
  deriving DecidableEq, Repr

/-- The result assembly of `process_message`, including its
catch-everything exception handler. -/
def process_message_result (isWhatsapp : Bool) : Except String GraphOutcome → RunResult
  | .error e =>
    { status := "error"
      answer :=
        if isWhatsapp then "Disculpa, encontré un problema técnico. Por favor intenta nuevamente."
        else "I'm sorry, I encountered an error. Technical details: " ++ e }
  | .ok (.interrupted p _) => { status := "interrupted", answer := p.answer }
  | .ok (.finished msgs) => { status := "completed", answer := finalAnswer msgs }

/-- The run segment that follows `enhanced_info_completion_node` in the
multi-agent graph: merge the node's command, then (its goto being the
feedback node) suspend there and assemble the service result. -/
def runAfterInfoCompletion
    (agent : PState → Except String (List Msg))
    (extract : String → Dict → Except String Dict)
    (s : PState) : RunResult :=
  let cmd := enhanced_info_completion_node agent extract s
  let s1 : PState := { s with messages := addMessages s.messages (liftAdds cmd.messagesPatch) }
  if cmd.goto = "enhanced_human_feedback" then
    match runInterruptNode enhanced_human_feedback_node s1 none with
    | .inl payload => process_message_result false (Except.ok (.interrupted payload s1.messages))
    | .inr _ => process_message_result false (Except.ok (.finished s1.messages))
  else process_message_result false (Except.ok (.finished s1.messages))

/-! ## The ReAct tool loop (src/app/graph/central_orchestrator.py) -/

/-- Modelled from the spec: LangGraph's `ToolNode` (a library
collaborator, absent from src/) — one tool-result message per tool
call, in call order, each carrying the matching call id; the named
tool is invoked through the collaborator `invoke`. -/
def tool_node (invoke : String → String → String) (calls : List ToolCall) : List Msg :=
  calls.map (fun c =>
    { role := .tool, content := invoke c.name c.args, toolCallId := some c.id, mid := c.id })

/-- The static edge table of `create_central_orchestrator_graph`: the
only unconditional edge sends the tool node back to the agent node. -/
def orchestratorEdge : String → Option String
  | "tools" => some "central_orchestrator"
  | _ => none

/-! ## The bounded executor
Modelled from the spec: the executor loop with its `recursionCount`
ceiling is the LangGraph runtime, absent from src/.  Per the spec
(§4.1), each node invocation is one step; when the ceiling is reached
before the graph terminates, the run is force-terminated with a
recursion-limit error. -/

inductive ExecResult
  | completed (finalMessages : List Msg)
  | recursionError (finalMessages : List Msg)

def isRecursionError : ExecResult → Bool
  | .recursionError _ => true
  | .completed _ => false

/-- One step of the orchestrator graph: the agent node appends the LLM
collaborator's message and routes through `should_continue`; the tool
node appends the tool results and unconditionally returns to the
agent node. -/
def orchestratorStep (agentLLM : List Msg → Msg) (invoke : String → String → String)
    (node : String) (msgs : List Msg) : String × List Msg :=
  if node = "central_orchestrator" then
    let m := agentLLM msgs
    let msgs' := msgs ++ [m]
    (should_continue { messages := msgs' }, msgs')
  else
    let calls := ((msgs.getLast?).map Msg.toolCalls).getD []
    ("central_orchestrator", msgs ++ tool_node invoke calls)

/-- Modelled from the spec: the executor run with a step ceiling.
Returns the result together with the number of steps executed. -/
def runOrchestrator (agentLLM : List Msg → Msg) (invoke : String → String → String) :
    Nat → String → List Msg → ExecResult × Nat
  | 0, node, msgs => ((if node = END_ then .completed msgs else .recursionError msgs), 0)
  | fuel + 1, node, msgs =>
    if node = END_ then (.completed msgs, 0)
    else
      let step := orchestratorStep agentLLM invoke node msgs
      let r := runOrchestrator agentLLM invoke fuel step.1 step.2
      (r.1, r.2 + 1)

/-- An agent that requests a tool call on every invocation
(the permanent agent-tools-agent cycle of the claim). -/
def alwaysToolAgent : List Msg → Msg :=
  fun _ => { role := .ai, content := "", toolCalls := [⟨"t", "{}", "c1"⟩], mid := "" }

/-! ## Persistence retry (src/app/database/postgres.py `with_retry`,
and the PostgreSQL retry loop of
src/app/graph/central_orchestrator.py `process_message_with_central_orchestrator`).
The fallible operation is a collaborator `op` indexed by attempt
number; delays are recorded in seconds (the executed `time.sleep` /
`asyncio.sleep` arguments) instead of being slept. -/

/-- The `while retries < max_retries` loop of `with_retry`: attempt,
and on failure sleep `delay * 2 ** (retries - 1)` before the next
attempt — except after the final attempt, where the exception is
re-raised.  `attempt` is the 0-based index of the current attempt,
`fuel` the number of attempts still allowed. -/
def withRetryGo {α : Type} (op : Nat → Except String α) (delay : Nat) :
    Nat → Nat → Except String α × List Nat
  | _, 0 => (.error "with_retry: no attempts", [])
  | attempt, fuel + 1 =>
    match op attempt with
    | .ok a => (.ok a, [])
    | .error e =>
      if fuel = 0 then (.error e, [])
      else
        let rest := withRetryGo op delay (attempt + 1) fuel
        (rest.1, delay * 2 ^ attempt :: rest.2)

/-- The `with_retry(max_retries, delay)` decorator applied to `op`. -/
def with_retry {α : Type} (op : Nat → Except String α) (maxRetries delay : Nat) :
    Except String α × List Nat :=
  withRetryGo op delay 0 maxRetries

/-- The PostgreSQL-style error test of the orchestrator's retry loop. -/
def isConnectionError (e : String) : Bool :=
  strContains e "server closed the connection" ||
  strContains (pyLower e) "connection" ||
  strContains (pyLower e) "postgresql"

/-- The apologetic error response of the orchestrator. -/
def orchestratorErrorResponse : String :=
  "Lo siento, hay un problema técnico temporalmente. Por favor intenta nuevamente en unos momentos."

/-- Outcome extraction of one orchestrator attempt: a raised exception
stays an error; a final state without messages raises
"Estado final inválido del grafo" inside the same `try`. -/
def orchestratorAttemptResult (r : Except String (List Msg)) : Except String String :=
  match r with
  | .error e => .error e
  | .ok msgs =>
    match msgs.getLast? with
    | some m => .ok m.content
    | none => .error "Estado final inválido del grafo"

/-- The `for attempt in range(max_retries)` loop of
`process_message_with_central_orchestrator`: connection-type failures
before the last attempt sleep `2.0 * (attempt + 1)` seconds and retry;
any other outcome returns a result dictionary — never a raised
exception. -/
def orchestratorRetryGo (run : Nat → Except String (List Msg)) (maxRetries : Nat) :
    Nat → Nat → RunResult × List Nat
  | _, 0 => ({ status := "error", answer := "Error inesperado en el sistema." }, [])
  | attempt, fuel + 1 =>
    match orchestratorAttemptResult (run attempt) with
    | .ok resp => ({ status := "completed", answer := resp }, [])
    | .error e =>
      if isConnectionError e ∧ attempt < maxRetries - 1 then
        let rest := orchestratorRetryGo run maxRetries (attempt + 1) fuel
        (rest.1, 2 * (attempt + 1) :: rest.2)
      else ({ status := "error", answer := orchestratorErrorResponse }, [])

/-- Function `process_message_with_central_orchestrator` (its retry/result
skeleton; `run` is one full graph invocation, max_retries defaults
to 3). -/
def process_message_with_central_orchestrator
    (run : Nat → Except String (List Msg)) (maxRetries : Nat := 3) : RunResult × List Nat :=
  orchestratorRetryGo run maxRetries 0 maxRetries

/-- A resumed turn of the multi-agent graph down to its result status:
the feedback node is resumed with `v`; when the supervisor routes to
`END` the run completes and the service reports "completed", otherwise
the run continues at the chosen agent node (`continueRun`). -/
def resumeRun (extract : String → Dict → Dict) (continueRun : String → PState → RunResult)
    (s : PState) (v : String) : RunResult :=
  match runInterruptNode enhanced_human_feedback_node s (some v) with
  | .inl p => { status := "interrupted", answer := p.answer }
  | .inr c =>
    let s1 := applyFeedbackCommand s c
    let sup := intelligent_supervisor_node extract s1
    if sup.goto = END_ then process_message_result false (Except.ok (.finished s1.messages))
    else continueRun sup.goto s1

/-- The spec's priority-ordered routing shape: evaluate `(predicate,
target)` pairs in order, return the first match, else the default. -/
def priorityRoute (pairs : List ((String × Dict → Bool) × String)) (default : String)
    (x : String × Dict) : String :=
  match pairs.find? (fun p => p.1 x) with
  | some p => p.2
  | none => default

/-- The supervisor's `(predicate, target)` list, in source order. -/
def supervisorPolicy : List ((String × Dict → Bool) × String) :=
  [(fun x => isTermination x.1, END_),
   (fun x => wantsToChange x.1, "info_completion_agent"),
   (fun x => ¬ canResearch x.2, "info_completion_agent"),
   (fun x => wantsResearch x.1, "researcher"),
   (fun x => wantsConversation x.1, "conversational_agent")]

/-! ## Helper lemmas -/

theorem lastHumanContent_concat (l : List Msg) (v mid : String) :
    lastHumanContent (l ++ [humanMsg v mid]) = v := by
  simp [lastHumanContent, humanMsg, List.find?]

theorem latestAnswer_concat (l : List Msg) (m : Msg) (h : m.role = Role.ai) :
    latestAnswer (l ++ [m]) = m.content := by
  simp [latestAnswer, h, List.find?]

theorem upsertMsg_fresh (acc : List Msg) (m : Msg) (h : ∀ x ∈ acc, x.mid ≠ m.mid) :
    upsertMsg acc m = acc ++ [m] := by
  have : acc.any (fun x => x.mid = m.mid) = false := by
    simp only [List.any_eq_false, decide_eq_true_eq]
    exact h
  simp [upsertMsg, this]

/-! ## Claim theorems -/

/-- C1.  Suspend/resume round-trip: a first invocation of
`enhanced_human_feedback_node` suspends with the latest assistant
answer as payload; invoking again with a resume value `v` makes the
`interrupt()` call return `v` and produces exactly the outcome of the
hypothetical synchronous semantics — the statement after the call runs
(appending `v` to history and feedback, routing to the supervisor),
not the node from scratch nor the graph entry. -/
theorem suspend_resume_roundtrip (s : PState) (v : String) :
    runInterruptNode enhanced_human_feedback_node s none
      = .inl { answer := latestAnswer s.messages, message := "Proporcione su respuesta:" } ∧
    runInterruptNode enhanced_human_feedback_node s (some v)
      = .inr (syncInterruptNode enhanced_human_feedback_node s v) ∧
    (syncInterruptNode enhanced_human_feedback_node s v).input = v ∧
    (syncInterruptNode enhanced_human_feedback_node s v).feedback = s.feedback ++ [v] ∧
    (syncInterruptNode enhanced_human_feedback_node s v).messagesPatch = [humanMsg v] ∧
    (syncInterruptNode enhanced_human_feedback_node s v).goto = "intelligent_supervisor" :=
  ⟨rfl, rfl, rfl, rfl, rfl, rfl⟩

/-- C7.  Routing determinism: `intelligent_supervisor_node` (with a
fixed extraction collaborator) reads only the `messages` and
`business_info` fields, and `should_continue` only `messages`; two
states agreeing on those fields route identically — no hidden
randomness, wall clock, or per-run state enters the decision. -/
theorem routing_determinism (extract : String → Dict → Dict) (s1 s2 t1 t2 : PState)
    (hm : s1.messages = s2.messages) (hb : s1.businessInfo = s2.businessInfo)
    (ht : t1.messages = t2.messages) :
    intelligent_supervisor_node extract s1 = intelligent_supervisor_node extract s2 ∧
    should_continue t1 = should_continue t2 := by
  constructor
  · simp only [intelligent_supervisor_node, hm, hb]
  · simp only [should_continue, ht]

theorem routing_determinism_witness :
    intelligent_supervisor_node (fun _ d => d) { messages := [humanMsg "hola" "m1"], answer := "x" }
      = intelligent_supervisor_node (fun _ d => d) { messages := [humanMsg "hola" "m1"], answer := "y" } ∧
    should_continue { messages := [humanMsg "hola" "m1"], answer := "x" }
      = should_continue { messages := [humanMsg "hola" "m1"], answer := "y" } :=
  routing_determinism (fun _ d => d) _ _ _ _ rfl rfl rfl

/-- C8.  Priority-ordered routing: the supervisor's decision equals the
first-match evaluation of its `(predicate, target)` list in the fixed
order termination, change intent, missing critical fields, research
intent, conversation intent, with default `research_router`; in
particular a state missing a critical field (intent neither
termination nor change) goes to `info_completion_agent` even when
research is requested, and `researcher` is reached only with all four
critical fields present. -/
theorem supervisor_priority_routing (u : String) (b : Dict) :
    supervisorGoto u b = priorityRoute supervisorPolicy "research_router" (u, b) ∧
    (isTermination u = false → wantsToChange u = false → missingCritical b ≠ [] →
      supervisorGoto u b = "info_completion_agent") ∧
    (supervisorGoto u b = "researcher" → missingCritical b = []) := by
  refine ⟨?_, ?_, ?_⟩
  · by_cases h1 : isTermination u
    · simp [supervisorGoto, priorityRoute, supervisorPolicy, h1]
    · by_cases h2 : wantsToChange u
      · simp [supervisorGoto, priorityRoute, supervisorPolicy, h1, h2]
      · by_cases h3 : canResearch b
        · by_cases h4 : wantsResearch u
          · simp [supervisorGoto, priorityRoute, supervisorPolicy, h1, h2, h3, h4]
          · by_cases h5 : wantsConversation u <;>
              simp [supervisorGoto, priorityRoute, supervisorPolicy, h1, h2, h3, h4, h5]
        · simp [supervisorGoto, priorityRoute, supervisorPolicy, h1, h2, h3]
  · intro h1 h2 h3
    have h3' : canResearch b = false := by simp [canResearch, h3]
    simp [supervisorGoto, h1, h2, h3']
  · intro h
    by_cases h3 : missingCritical b = []
    · exact h3
    · exfalso
      have h3' : canResearch b = false := by simp [canResearch, h3]
      by_cases h1 : isTermination u
      · rw [supervisorGoto, if_pos h1] at h
        exact absurd h (by decide)
      · by_cases h2 : wantsToChange u
        · rw [supervisorGoto, if_neg (by simp [h1]), if_pos h2] at h
          exact absurd h (by decide)
        · rw [supervisorGoto, if_neg (by simp [h1]), if_neg (by simp [h2]),
            if_pos (by simp [h3'])] at h
          exact absurd h (by decide)

theorem supervisor_priority_routing_witness :
    supervisorGoto "investiga el mercado" Dict.empty = "info_completion_agent" :=
  (supervisor_priority_routing "investiga el mercado" Dict.empty).2.1
    (by decide) (by decide) (by decide)

/-- The business info the supervisor works with on a resumed turn. -/
def resumedBinfo (extract : String → Dict → Dict) (s : PState) (v : String) : Dict :=
  (intelligent_supervisor_node extract
    (applyFeedbackCommand s (syncInterruptNode enhanced_human_feedback_node s v))).businessInfo

theorem resumeRouting_eq (extract : String → Dict → Dict) (s : PState) (v : String) :
    resumeRouting extract s v = supervisorGoto v (resumedBinfo extract s v) := by
  simp only [resumeRouting, runInterruptNode, resumedBinfo, intelligent_supervisor_node,
    syncInterruptNode, applyFeedbackCommand, enhanced_human_feedback_node]
  rw [lastHumanContent_concat]

theorem resumeRun_eq (extract : String → Dict → Dict)
    (continueRun : String → PState → RunResult) (s : PState) (v : String) :
    resumeRun extract continueRun s v =
      if supervisorGoto v (resumedBinfo extract s v) = END_
      then process_message_result false (Except.ok (.finished (s.messages ++ [humanMsg v])))
      else continueRun (supervisorGoto v (resumedBinfo extract s v))
             (applyFeedbackCommand s (syncInterruptNode enhanced_human_feedback_node s v)) := by
  simp only [resumeRun, runInterruptNode, resumedBinfo, intelligent_supervisor_node,
    syncInterruptNode, applyFeedbackCommand, enhanced_human_feedback_node]
  rw [lastHumanContent_concat]

theorem supervisorGoto_ne_end (u : String) (b : Dict) (h : isTermination u = false) :
    supervisorGoto u b ≠ END_ := by
  rw [supervisorGoto, if_neg (by simp [h])]
  split_ifs <;> decide

/-- C2.  Termination shortcut: a resume value whose stripped,
lower-cased form is a termination token ends the run — the feedback
node of the supervisor architecture gotos `END`, and in the handoff
graph the supervisor gotos `END` whatever business info extraction
produced, so the service reports "completed"; a non-matching resume
value instead continues to the next routing node
(`business_evaluator`, respectively the agent the supervisor picked). -/
theorem termination_shortcut (v : String) (s : PState)
    (extract : String → Dict → Dict) (continueRun : String → PState → RunResult) :
    (isTermination v = true →
      human_feedback_goto v = END_ ∧
      resumeRouting extract s v = END_ ∧
      (resumeRun extract continueRun s v).status = "completed") ∧
    (isTermination v = false →
      human_feedback_goto v = "business_evaluator" ∧
      resumeRouting extract s v ≠ END_ ∧
      resumeRun extract continueRun s v
        = continueRun (resumeRouting extract s v)
            (applyFeedbackCommand s (syncInterruptNode enhanced_human_feedback_node s v))) := by
  constructor
  · intro h
    have hgoto : supervisorGoto v (resumedBinfo extract s v) = END_ := by
      rw [supervisorGoto, if_pos (by simp [isTermination] at h ⊢; exact h)]
    refine ⟨?_, ?_, ?_⟩
    · rw [human_feedback_goto, if_pos (by simp [isTermination] at h; exact h)]
    · rw [resumeRouting_eq, hgoto]
    · rw [resumeRun_eq, if_pos hgoto]
      rfl
  · intro h
    have hgoto := supervisorGoto_ne_end v (resumedBinfo extract s v) h
    refine ⟨?_, ?_, ?_⟩
    · rw [human_feedback_goto, if_neg (by simp [isTermination] at h; exact h)]
    · rw [resumeRouting_eq]; exact hgoto
    · rw [resumeRun_eq, if_neg hgoto, resumeRouting_eq]

theorem termination_shortcut_witness :
    (human_feedback_goto "  GRACIAS " = END_ ∧
      resumeRouting (fun _ d => d) { messages := [humanMsg "hola" "m1"] } "  GRACIAS " = END_ ∧
      (resumeRun (fun _ d => d) (fun _ _ => { status := "continued", answer := "" })
        { messages := [humanMsg "hola" "m1"] } "  GRACIAS ").status = "completed") ∧
    (human_feedback_goto "mi empresa vende pan" = "business_evaluator" ∧
      resumeRouting (fun _ d => d) { messages := [humanMsg "hola" "m1"] } "mi empresa vende pan"
        ≠ END_) := by
  have h := termination_shortcut "  GRACIAS " { messages := [humanMsg "hola" "m1"] }
    (fun _ d => d) (fun _ _ => { status := "continued", answer := "" })
  have h2 := termination_shortcut "mi empresa vende pan" { messages := [humanMsg "hola" "m1"] }
    (fun _ d => d) (fun _ _ => { status := "continued", answer := "" })
  exact ⟨h.1 (by decide), (h2.2 (by decide)).1, (h2.2 (by decide)).2.1⟩

/-- C4.  Tool-loop routing: `should_continue` answers `"tools"` exactly
when the last message carries a non-empty tool-call list, and `END`
otherwise; the tool node yields one tool-result message per call, in
call order, with matching call ids and the invoked tool's output as
content; the graph's only edge out of the tool node returns
unconditionally to the agent node. -/
theorem tool_loop_routing (s : PState) (last : Msg) (h : s.messages.getLast? = some last)
    (invoke : String → String → String) (calls : List ToolCall) :
    (should_continue s = "tools" ↔ last.toolCalls ≠ []) ∧
    (last.toolCalls = [] → should_continue s = END_) ∧
    (tool_node invoke calls).length = calls.length ∧
    (tool_node invoke calls).map Msg.toolCallId = calls.map (fun c => some c.id) ∧
    (tool_node invoke calls).map Msg.content = calls.map (fun c => invoke c.name c.args) ∧
    (tool_node invoke calls).map Msg.role = calls.map (fun _ => Role.tool) ∧
    orchestratorEdge "tools" = some "central_orchestrator" := by
  refine ⟨?_, ?_, ?_, ?_, ?_, ?_, rfl⟩
  · simp only [should_continue, h]
    by_cases hnil : last.toolCalls = []
    · rw [if_neg (fun hk => hk hnil)]
      exact ⟨fun hE => absurd hE (by decide), fun hc => absurd hnil hc⟩
    · rw [if_pos hnil]
      exact ⟨fun _ => hnil, fun _ => rfl⟩
  · intro hnil
    simp only [should_continue, h]
    rw [if_neg (fun hk => hk hnil)]
  · simp [tool_node]
  · simp [tool_node]
  · simp [tool_node]
  · induction calls with
    | nil => rfl
    | cons c t iht => simp_all [tool_node]

/-- A message carrying one tool call, for the concrete instances. -/
def toolCallMsg : Msg :=
  { role := .ai, content := "", toolCalls := [⟨"search", "{}", "call1"⟩], mid := "m2" }

theorem tool_loop_routing_witness :
    (should_continue { messages := [aiMsg "x" "m1", toolCallMsg] } = "tools" ↔
      toolCallMsg.toolCalls ≠ []) ∧
    (toolCallMsg.toolCalls = [] →
      should_continue { messages := [aiMsg "x" "m1", toolCallMsg] } = END_) ∧
    (tool_node (fun n _ => n) [⟨"search", "{}", "call1"⟩]).length
      = [(⟨"search", "{}", "call1"⟩ : ToolCall)].length ∧
    (tool_node (fun n _ => n) [⟨"search", "{}", "call1"⟩]).map Msg.toolCallId
      = [(⟨"search", "{}", "call1"⟩ : ToolCall)].map (fun c => some c.id) ∧
    (tool_node (fun n _ => n) [⟨"search", "{}", "call1"⟩]).map Msg.content
      = [(⟨"search", "{}", "call1"⟩ : ToolCall)].map (fun c => (fun n _ => n) c.name c.args) ∧
    (tool_node (fun n _ => n) [⟨"search", "{}", "call1"⟩]).map Msg.role
      = [(⟨"search", "{}", "call1"⟩ : ToolCall)].map (fun _ => Role.tool) ∧
    orchestratorEdge "tools" = some "central_orchestrator" :=
  tool_loop_routing { messages := [aiMsg "x" "m1", toolCallMsg] } toolCallMsg
    rfl (fun n _ => n) [⟨"search", "{}", "call1"⟩]

theorem runOrchestrator_steps_le (agentLLM : List Msg → Msg)
    (invoke : String → String → String) :
    ∀ fuel node msgs, (runOrchestrator agentLLM invoke fuel node msgs).2 ≤ fuel := by
  intro fuel
  induction fuel with
  | zero => intro node msgs; simp [runOrchestrator]
  | succ n ih =>
    intro node msgs
    by_cases h : node = END_
    · simp [runOrchestrator, h]
    · simp only [runOrchestrator, if_neg h]
      exact Nat.succ_le_succ (ih _ _)

/-- The permanent agent-tools-agent cycle: starting at either node of
the tool loop, the always-tool-calling agent never reaches `END`, so
the run exhausts its entire fuel and ends in the recursion error. -/
theorem alwaysTool_spins (invoke : String → String → String) :
    ∀ fuel node msgs, node = "central_orchestrator" ∨ node = "tools" →
      isRecursionError (runOrchestrator alwaysToolAgent invoke fuel node msgs).1 = true ∧
      (runOrchestrator alwaysToolAgent invoke fuel node msgs).2 = fuel := by
  intro fuel
  induction fuel with
  | zero =>
    intro node msgs hn
    rcases hn with h | h <;> subst h <;>
      · simp only [runOrchestrator]
        rw [if_neg (by decide)]
        simp [isRecursionError]
  | succ n ih =>
    intro node msgs hn
    have hne : node ≠ END_ := by rcases hn with h | h <;> subst h <;> decide
    have hnext : (orchestratorStep alwaysToolAgent invoke node msgs).1 = "central_orchestrator"
        ∨ (orchestratorStep alwaysToolAgent invoke node msgs).1 = "tools" := by
      rcases hn with h | h <;> subst h
      · right
        rw [orchestratorStep, if_pos rfl]
        simp [should_continue, List.getLast?_concat, alwaysToolAgent]
      · left
        rw [orchestratorStep, if_neg (by decide)]
    obtain ⟨h1, h2⟩ := ih (orchestratorStep alwaysToolAgent invoke node msgs).1
      (orchestratorStep alwaysToolAgent invoke node msgs).2 hnext
    simp only [runOrchestrator, if_neg hne]
    exact ⟨h1, by rw [h2]⟩

/-- C5.  Bounded recursion: every executor run finishes within the step
ceiling (the step count never exceeds the fuel), the result being
either a completed run or the explicit recursion-limit error; and the
agent that requests a tool call on every invocation is force-terminated
with the recursion error after exactly 5 steps when the ceiling is 5. -/
theorem bounded_recursion (agentLLM : List Msg → Msg) (invoke : String → String → String)
    (ceiling : Nat) (node : String) (msgs startMsgs : List Msg) :
    (runOrchestrator agentLLM invoke ceiling node msgs).2 ≤ ceiling ∧
    isRecursionError
      (runOrchestrator alwaysToolAgent invoke 5 "central_orchestrator" startMsgs).1 = true ∧
    (runOrchestrator alwaysToolAgent invoke 5 "central_orchestrator" startMsgs).2 = 5 :=
  ⟨runOrchestrator_steps_le agentLLM invoke ceiling node msgs,
   (alwaysTool_spins invoke 5 "central_orchestrator" startMsgs (Or.inl rfl)).1,
   (alwaysTool_spins invoke 5 "central_orchestrator" startMsgs (Or.inl rfl)).2⟩

theorem upsertMsg_length_le (old : List Msg) (m : Msg) :
    old.length ≤ (upsertMsg old m).length := by
  rw [upsertMsg]
  split_ifs with h
  · simp
  · simp

theorem addMessages_removeFree_length (patch : List MsgPatch) :
    ∀ old : List Msg, removeFree patch = true → old.length ≤ (addMessages old patch).length := by
  induction patch with
  | nil => intro old _; exact le_refl _
  | cons p t ih =>
    intro old hrf
    cases p with
    | add m =>
      have ht : removeFree t = true := by simpa [removeFree] using hrf
      calc old.length ≤ (upsertMsg old m).length := upsertMsg_length_le old m
        _ ≤ (addMessages (upsertMsg old m) t).length := ih (upsertMsg old m) ht
    | removeMsg i => simp [removeFree] at hrf

theorem addMessages_removeAll (b : List Msg) :
    ∀ a : List Msg, ((a ++ b).map Msg.mid).Nodup →
      addMessages (a ++ b) (a.map (fun m => MsgPatch.removeMsg m.mid)) = b := by
  intro a
  induction a with
  | nil => intro _; rfl
  | cons m a' ih =>
    intro hnd
    simp only [List.cons_append, List.map_cons, List.nodup_cons] at hnd
    obtain ⟨hmem, hnd'⟩ := hnd
    have hfilter : applyPatch (m :: (a' ++ b)) (MsgPatch.removeMsg m.mid) = a' ++ b := by
      simp only [applyPatch, List.filter_cons]
      rw [if_neg (by simp)]
      apply List.filter_eq_self.mpr
      intro x hx
      simp only [decide_eq_true_eq, ne_eq]
      intro hEq
      exact hmem (hEq ▸ List.mem_map_of_mem Msg.mid hx)
    show addMessages (m :: (a' ++ b)) (MsgPatch.removeMsg m.mid :: a'.map _) = b
    rw [addMessages, List.foldl_cons, hfilter]
    exact ih hnd'

theorem summarize_truncates (llm : String) (msgs : List Msg)
    (hnd : (msgs.map Msg.mid).Nodup) :
    addMessages msgs (summarize_conversation llm { messages := msgs }).1
      = msgs.drop (msgs.length - 2) := by
  have h := addMessages_removeAll (msgs.drop (msgs.length - 2))
    (msgs.take (msgs.length - 2)) (by rw [List.take_append_drop]; exact hnd)
  rw [List.take_append_drop] at h
  exact h

/-- C6.  Message monotonicity: a patch without `RemoveMessage`
directives never shrinks the history under the `add_messages` reducer
(every ordinary node's patch, a plain message list, is such a patch);
the sole exception is `summarize_conversation`, whose patch removes
exactly the messages before the two most recent ones — the history
becomes its final two messages — while the summary channel receives
the LLM's summary text. -/
theorem message_monotonicity (old : List Msg) (patch : List MsgPatch)
    (hrf : removeFree patch = true) (adds msgs : List Msg) (llm : String)
    (hnd : (msgs.map Msg.mid).Nodup) :
    old.length ≤ (addMessages old patch).length ∧
    removeFree (liftAdds adds) = true ∧
    addMessages msgs (summarize_conversation llm { messages := msgs }).1
      = msgs.drop (msgs.length - 2) ∧
    (summarize_conversation llm { messages := msgs }).2 = llm := by
  refine ⟨addMessages_removeFree_length patch old hrf, ?_, summarize_truncates llm msgs hnd, rfl⟩
  simp [removeFree, liftAdds, List.all_eq_true]

theorem message_monotonicity_witness :
    ([humanMsg "hola" "m1"] : List Msg).length
      ≤ (addMessages [humanMsg "hola" "m1"] [MsgPatch.add (aiMsg "respuesta" "m2")]).length ∧
    removeFree (liftAdds [aiMsg "x" "m9"]) = true ∧
    addMessages [humanMsg "a" "m1", aiMsg "b" "m2", humanMsg "c" "m3"]
        (summarize_conversation "resumen"
          { messages := [humanMsg "a" "m1", aiMsg "b" "m2", humanMsg "c" "m3"] }).1
      = ([humanMsg "a" "m1", aiMsg "b" "m2", humanMsg "c" "m3"] : List Msg).drop
          (([humanMsg "a" "m1", aiMsg "b" "m2", humanMsg "c" "m3"] : List Msg).length - 2) ∧
    (summarize_conversation "resumen"
        { messages := [humanMsg "a" "m1", aiMsg "b" "m2", humanMsg "c" "m3"] }).2 = "resumen" :=
  message_monotonicity [humanMsg "hola" "m1"] [MsgPatch.add (aiMsg "respuesta" "m2")]
    (by decide) [aiMsg "x" "m9"]
    [humanMsg "a" "m1", aiMsg "b" "m2", humanMsg "c" "m3"] "resumen" (by decide)

theorem mergeExtracted_cons (cur : Dict) (fv : String × Option String)
    (rest : List (String × Option String)) :
    mergeExtracted cur (fv :: rest) = mergeExtracted (mergeStep cur fv) rest := rfl

theorem mergeStep_some (acc : Dict) (f v : String) :
    mergeStep acc (f, some v)
      = if pyStrip v ≠ "" then acc.insert f (pyStrip v) else acc := rfl

theorem mergeStep_isSome (acc : Dict) (fv : String × Option String) (k : String)
    (h : (acc k).isSome) : ((mergeStep acc fv) k).isSome := by
  obtain ⟨f, ov⟩ := fv
  cases ov with
  | none => exact h
  | some v =>
    rw [mergeStep_some]
    split_ifs with hs
    · rw [Dict.insert]
      by_cases hk : k = f <;> simp [hk, h]
    · exact h

theorem mergeStep_changed (acc : Dict) (fv : String × Option String) (k : String)
    (h : mergeStep acc fv k ≠ acc k) :
    ∃ v, fv = (k, some v) ∧ pyStrip v ≠ "" ∧ mergeStep acc fv k = some (pyStrip v) := by
  obtain ⟨f, ov⟩ := fv
  cases ov with
  | none => exact absurd rfl h
  | some v =>
    rw [mergeStep_some] at h ⊢
    split_ifs at h ⊢ with hs
    · rw [Dict.insert] at h ⊢
      by_cases hk : k = f
      · exact ⟨v, by rw [Prod.ext_iff]; exact ⟨hk.symm, rfl⟩, hs, by rw [if_pos hk]⟩
      · rw [if_neg hk] at h; exact absurd rfl h
    · exact absurd rfl h

theorem mergeExtracted_isSome (ext : List (String × Option String)) :
    ∀ (cur : Dict) (k : String), (cur k).isSome → ((mergeExtracted cur ext) k).isSome := by
  induction ext with
  | nil => intro cur k h; exact h
  | cons fv rest ih =>
    intro cur k h
    rw [mergeExtracted_cons]
    exact ih (mergeStep cur fv) k (mergeStep_isSome cur fv k h)

theorem mergeExtracted_changed (ext : List (String × Option String)) :
    ∀ (cur : Dict) (k : String), mergeExtracted cur ext k ≠ cur k →
      ∃ v, (k, some v) ∈ ext ∧ pyStrip v ≠ "" ∧ mergeExtracted cur ext k = some (pyStrip v) := by
  induction ext with
  | nil => intro cur k h; exact absurd rfl h
  | cons fv rest ih =>
    intro cur k h
    rw [mergeExtracted_cons] at h ⊢
    by_cases hk : mergeExtracted (mergeStep cur fv) rest k = mergeStep cur fv k
    · rw [hk] at h
      obtain ⟨v, hfv, hs, hval⟩ := mergeStep_changed cur fv k h
      exact ⟨v, by rw [hfv] at *; exact List.mem_cons_self _ _, hs, by rw [hk, hval]⟩
    · obtain ⟨v, hmem, hs, hval⟩ := ih (mergeStep cur fv) k hk
      exact ⟨v, List.mem_cons_of_mem _ hmem, hs, hval⟩

/-- C10.  Business-info merge is growing and non-destructive:
`extract_and_store_business_info` returns `current_info` unchanged for
non-human messages; for human messages every key of `current_info`
survives into the result (no key is removed), and a key's value
differs from its current one only when the extractor supplied a
non-`None` value that is non-empty after stripping — in which case the
new value is exactly that stripped string.  Empty or whitespace-only
extractor values never overwrite anything. -/
theorem business_info_merge (analysis : BusinessInfoAnalysis) (cur : Dict) (r : Role)
    (k : String) :
    (r ≠ Role.human → extract_and_store_business_info r analysis cur = cur) ∧
    ((cur k).isSome → ((extract_and_store_business_info Role.human analysis cur) k).isSome) ∧
    (extract_and_store_business_info Role.human analysis cur k ≠ cur k →
      ∃ ext v, analysis.extracted_info = some ext ∧ (k, some v) ∈ ext ∧ pyStrip v ≠ "" ∧
        extract_and_store_business_info Role.human analysis cur k = some (pyStrip v)) := by
  obtain ⟨imp, extOpt⟩ := analysis
  refine ⟨?_, ?_, ?_⟩
  · intro h
    rw [extract_and_store_business_info, if_pos h]
  · intro h
    cases extOpt with
    | none => exact h
    | some ext =>
      show ((if imp = true ∧ ext ≠ [] then mergeExtracted cur ext else cur) k).isSome
      split_ifs with himp
      · exact mergeExtracted_isSome ext cur k h
      · exact h
  · intro h
    cases extOpt with
    | none => exact absurd rfl h
    | some ext =>
      replace h : (if imp = true ∧ ext ≠ [] then mergeExtracted cur ext else cur) k ≠ cur k := h
      show ∃ ext1 v, some ext = some ext1 ∧ (k, some v) ∈ ext1 ∧ pyStrip v ≠ "" ∧
        (if imp = true ∧ ext ≠ [] then mergeExtracted cur ext else cur) k = some (pyStrip v)
      split_ifs at h ⊢ with himp
      · obtain ⟨v, hmem, hs, hval⟩ := mergeExtracted_changed ext cur k h
        exact ⟨ext, v, rfl, hmem, hs, hval⟩
      · exact absurd rfl h

/-- A concrete current-info dictionary for the C10 instance. -/
def cexCurInfo : Dict := Dict.empty.insert "nombre_empresa" "Kumak"

/-- A concrete extraction result for the C10 instance: one usable value
and one whitespace-only value. -/
def cexAnalysis : BusinessInfoAnalysis :=
  { is_important := true
    extracted_info := some [("ubicacion", some " Lima "), ("sector", some "   ")] }

theorem business_info_merge_witness :
    (extract_and_store_business_info Role.ai cexAnalysis cexCurInfo = cexCurInfo) ∧
    ((extract_and_store_business_info Role.human cexAnalysis cexCurInfo) "nombre_empresa").isSome ∧
    (∃ ext v, cexAnalysis.extracted_info = some ext ∧ ("ubicacion", some v) ∈ ext ∧
      pyStrip v ≠ "" ∧
      extract_and_store_business_info Role.human cexAnalysis cexCurInfo "ubicacion"
        = some (pyStrip v)) :=
  ⟨(business_info_merge cexAnalysis cexCurInfo Role.ai "nombre_empresa").1 (by decide),
   (business_info_merge cexAnalysis cexCurInfo Role.human "nombre_empresa").2.1 (by decide),
   (business_info_merge cexAnalysis cexCurInfo Role.human "ubicacion").2.2 (by decide)⟩

theorem withRetryGo_succ {α : Type} (op : Nat → Except String α) (delay attempt fuel : Nat) :
    withRetryGo op delay attempt (fuel + 1)
      = (match op attempt with
         | .ok a => (.ok a, [])
         | .error err =>
           if fuel = 0 then (.error err, [])
           else ((withRetryGo op delay (attempt + 1) fuel).1,
                 delay * 2 ^ attempt :: (withRetryGo op delay (attempt + 1) fuel).2)) := rfl

theorem withRetryGo_allFail {α : Type} (op : Nat → Except String α) (delay : Nat)
    (e : Nat → String) (hop : ∀ k, op k = .error (e k)) :
    ∀ fuel attempt, withRetryGo op delay attempt (fuel + 1)
      = (.error (e (attempt + fuel)),
         (List.range fuel).map (fun i => delay * 2 ^ (attempt + i))) := by
  intro fuel
  induction fuel with
  | zero =>
    intro attempt
    simp [withRetryGo_succ, hop attempt]
  | succ n ih =>
    intro attempt
    rw [withRetryGo_succ]
    simp only [hop attempt]
    rw [if_neg (Nat.succ_ne_zero n), ih (attempt + 1)]
    simp only [Prod.mk.injEq]
    constructor
    · rw [show attempt + 1 + n = attempt + (n + 1) from by omega]
    · rw [List.range_succ_eq_map, List.map_cons, List.map_map, Nat.add_zero]
      refine congrArg (fun t => delay * 2 ^ attempt :: t) ?_
      apply List.map_congr_left
      intro i _
      show delay * 2 ^ (attempt + 1 + i) = delay * 2 ^ (attempt + (i + 1))
      rw [show attempt + 1 + i = attempt + (i + 1) from by omega]

/-- C9.  Persistence-error handling: when the store operation fails on
every attempt, `with_retry` performs exactly `maxRetries` bounded
attempts with delays `delay * 2^0, delay * 2^1, ...` (each delay twice
the previous — exponential backoff) before surfacing the final error;
and the orchestrator's own PostgreSQL retry loop, under persistent
connection failures, sleeps 2 then 4 seconds across its three default
attempts and then returns an explicit `status = "error"` result with
the apologetic message — the exception is not propagated and the
conversation is not advanced. -/
theorem persistence_retry {α : Type} (op : Nat → Except String α) (e : Nat → String)
    (delay m : Nat) (hop : ∀ k, op k = .error (e k))
    (run : Nat → Except String (List Msg)) (er : Nat → String)
    (hrun : ∀ k, run k = .error (er k)) (hconn : ∀ k, isConnectionError (er k) = true) :
    with_retry op (m + 1) delay
      = (.error (e m), (List.range m).map (fun i => delay * 2 ^ i)) ∧
    (process_message_with_central_orchestrator run).1
      = { status := "error", answer := orchestratorErrorResponse } ∧
    (process_message_with_central_orchestrator run).2 = [2, 4] := by
  refine ⟨?_, ?_⟩
  · rw [with_retry, withRetryGo_allFail op delay e hop m 0]
    simp
  · have h0 := hconn 0
    have h1 := hconn 1
    have h2 := hconn 2
    constructor <;>
      simp [process_message_with_central_orchestrator, orchestratorRetryGo,
        orchestratorAttemptResult, hrun, h0, h1, h2]

theorem persistence_retry_witness :
    with_retry (fun _ => (.error "connection refused" : Except String Unit)) (2 + 1) 1
      = (.error "connection refused", (List.range 2).map (fun i => 1 * 2 ^ i)) ∧
    (process_message_with_central_orchestrator (fun _ => .error "connection refused")).1
      = { status := "error", answer := orchestratorErrorResponse } ∧
    (process_message_with_central_orchestrator (fun _ => .error "connection refused")).2
      = [2, 4] := by
  have hc : isConnectionError "connection refused" = true := by decide
  exact persistence_retry (fun _ => (.error "connection refused" : Except String Unit))
    (fun _ => "connection refused") 1 2 (fun _ => rfl)
    (fun _ => .error "connection refused") (fun _ => "connection refused")
    (fun _ => rfl) (fun _ => hc)

/-- C3 counterexample: with an agent collaborator that raises, the run
recovers with the fallback assistant message as payload, but its
result status is "interrupted" (the graph suspends at the feedback
node), not "completed" as the claim states. -/
theorem node_error_not_completed_cex :
    (runAfterInfoCompletion (fun _ => .error "LLM connection failure") (fun _ d => .ok d)
        { messages := [humanMsg "hola" "m1"] }).status = "interrupted" ∧
    (runAfterInfoCompletion (fun _ => .error "LLM connection failure") (fun _ d => .ok d)
        { messages := [humanMsg "hola" "m1"] }).answer = infoCompletionFallback ∧
    ("interrupted" : String) ≠ "completed" :=
  ⟨rfl, rfl, by decide⟩

/-- C3 (amended).  Node-level exception recovery: an exception inside
`enhanced_info_completion_node` never propagates — the node returns the
fallback assistant message and routes to the human-feedback node, so
the run surfaces the fallback as its payload with status
"interrupted" (suspended awaiting the user), not "completed"; and any
exception that escapes the graph is converted by `process_message`
into a `status = "error"` result rather than being re-raised. -/
theorem node_error_recovery (s : PState) (e ge : String)
    (extract : String → Dict → Except String Dict)
    (hfresh : ∀ m ∈ s.messages, m.mid ≠ "") (isW : Bool) :
    (enhanced_info_completion_node (fun _ => .error e) extract s).goto
      = "enhanced_human_feedback" ∧
    (enhanced_info_completion_node (fun _ => .error e) extract s).messagesPatch
      = [aiMsg infoCompletionFallback] ∧
    (runAfterInfoCompletion (fun _ => .error e) extract s).status = "interrupted" ∧
    (runAfterInfoCompletion (fun _ => .error e) extract s).answer = infoCompletionFallback ∧
    (process_message_result isW (.error ge)).status = "error" := by
  have hmsgs : addMessages s.messages (liftAdds [aiMsg infoCompletionFallback])
      = s.messages ++ [aiMsg infoCompletionFallback] := by
    show upsertMsg s.messages (aiMsg infoCompletionFallback) = _
    exact upsertMsg_fresh _ _ (fun x hx => hfresh x hx)
  have hrun : runAfterInfoCompletion (fun _ => .error e) extract s
      = { status := "interrupted"
          answer := latestAnswer (s.messages ++ [aiMsg infoCompletionFallback]) } := by
    rw [runAfterInfoCompletion]
    simp only [enhanced_info_completion_node]
    rw [hmsgs]
    simp only [if_true]
    rfl
  refine ⟨rfl, rfl, ?_, ?_, ?_⟩
  · rw [hrun]
  · rw [hrun]
    exact latestAnswer_concat s.messages (aiMsg infoCompletionFallback) rfl
  · cases isW <;> rfl

theorem node_error_recovery_witness :
    (enhanced_info_completion_node (fun _ => .error "boom") (fun _ d => .ok d)
        { messages := [humanMsg "buenas" "w1"] }).goto = "enhanced_human_feedback" ∧
    (enhanced_info_completion_node (fun _ => .error "boom") (fun _ d => .ok d)
        { messages := [humanMsg "buenas" "w1"] }).messagesPatch
      = [aiMsg infoCompletionFallback] ∧
    (runAfterInfoCompletion (fun _ => .error "boom") (fun _ d => .ok d)
        { messages := [humanMsg "buenas" "w1"] }).status = "interrupted" ∧
    (runAfterInfoCompletion (fun _ => .error "boom") (fun _ d => .ok d)
        { messages := [humanMsg "buenas" "w1"] }).answer = infoCompletionFallback ∧
    (process_message_result false (.error "io-error")).status = "error" :=
  node_error_recovery { messages := [humanMsg "buenas" "w1"] } "boom" "io-error"
    (fun _ d => .ok d) (by decide) false

end Kumak
